import Mathlib

/-!
A shallow embedding of the ModernCounter library (src/index.js) and proofs
about its animation lifecycle.

Modelling conventions:

* JavaScript numbers are modelled as rationals (`ℚ`); `Math.ceil` is `Int.ceil`.
* The environment is one without the optional GSAP backend
  (`typeof gsap === 'undefined'`), so `animateWithGSAP` returns `false`,
  `start` takes the built-in `setInterval` path, and the `killTweensOf`
  branch of `stop` is skipped.  This is the built-in tick path the claims
  are about.
* `setInterval` / `clearInterval` are modelled by an explicit pool of
  repeating-timer resources (`Timers`): `setInterval` allocates a fresh
  nonzero id, `clearInterval` removes an id (a no-op for ids that are not
  active, matching JS).
* The hooks `onUpdate` / `onComplete` are modelled as emitted `Event`s:
  the trace records the calls the engine makes when the hooks are
  functions.
* `render()` writes `formatter(value, options)` into the element; since
  the formatter is a pure function of the value and the options, the
  displayed text is modelled by remembering the last rendered value
  (`rendered`).
* The event loop is modelled by `stepOnce`: an interval-firing opportunity
  runs the `update` callback iff the instance's repeating timer resource
  is still active (a cleared timer never fires again).
-/

namespace MC

/-- Merged configuration options of a `ModernCounter` instance
(`ModernCounter.DEFAULTS` overridden by data attributes and the options
argument; the engine only reads the merged result).  `from` is a Lean
keyword, hence the field name `from_`.  The `formatter`, `onUpdate`,
`onComplete` and `scrollTrigger` entries are modelled elsewhere (see the
module comment). -/
structure Options where
  from_ : ℚ
  to_ : ℚ
  speed : ℚ
  refreshInterval : ℚ
  decimals : ℕ
  deriving Repr, DecidableEq

/-- The pool of repeating-timer resources.  `active` lists the ids of the
live interval timers, `nextId` is the next fresh id.  Ids start at 1
because browsers return nonzero ids (relevant to JS truthiness tests). -/
structure Timers where
  nextId : ℕ
  active : List ℕ
  deriving Repr, DecidableEq

/-- The empty timer pool. -/
def Timers.empty : Timers := ⟨1, []⟩

/-- Model of `setInterval`: allocates a fresh repeating-timer resource and
returns its id together with the new pool. -/
def setIntervalT (t : Timers) : ℕ × Timers :=
  (t.nextId, ⟨t.nextId + 1, t.active ++ [t.nextId]⟩)

/-- Model of `clearInterval`: cancels the timer with the given id.
Clearing an id that is not active is a no-op, as in JS. -/
def clearIntervalT (t : Timers) (id : ℕ) : Timers :=
  ⟨t.nextId, t.active.filter (· ≠ id)⟩

/-- Hook invocations observable from outside the engine. -/
inductive Event where
  | update (v : ℚ)
  | complete (v : ℚ)
  deriving Repr, DecidableEq

/-- True exactly on `onUpdate` invocations. -/
def Event.isUpdate : Event → Bool
  | .update _ => true
  | .complete _ => false

/-- True exactly on `onComplete` invocations. -/
def Event.isComplete : Event → Bool
  | .update _ => false
  | .complete _ => true

/-- Instance state of a `ModernCounter`: the fields set by the constructor
and `init()` (index.js:65-78, 167-182), the interval handle, the timer
pool and the last rendered value (`none` before the first `render`). -/
structure State where
  options : Options
  value : ℚ
  loops : ℤ
  loopCount : ℕ
  increment : ℚ
  interval : Option ℕ
  timers : Timers
  rendered : Option ℚ
  deriving Repr, DecidableEq

/-- The body of `init()` (index.js:167-182):
`value = from`, `loops = Math.ceil(speed / refreshInterval)`,
`loopCount = 0`, `increment = (to - from) / loops`. -/
def init (s : State) : State :=
  let loops : ℤ := ⌈s.options.speed / s.options.refreshInterval⌉
  { s with
    value := s.options.from_
    loops := loops
    loopCount := 0
    increment := (s.options.to_ - s.options.from_) / (loops : ℚ) }

/-- The body of `render()` (index.js:256-258): writes the formatted current
value into the element, modelled by remembering the rendered value. -/
def render (s : State) : State := { s with rendered := some s.value }

/-- The body of `update()` (index.js:190-208), one tick of the built-in
interval path: `value += increment; loopCount++; render();` invoke
`onUpdate(value)`; then, if `loopCount >= loops`:
`clearInterval(interval); value = to; render();` invoke `onComplete(value)`.
Note the `interval` field itself is not nulled here, only the timer
resource is cleared. -/
def update (s : State) : State × List Event :=
  let v := s.value + s.increment
  let s1 := render { s with value := v, loopCount := s.loopCount + 1 }
  if (s1.loopCount : ℤ) ≥ s1.loops then
    let t := match s1.interval with
      | some i => clearIntervalT s1.timers i
      | none => s1.timers
    let s2 := render { s1 with timers := t, value := s1.options.to_ }
    (s2, [Event.update v, Event.complete s1.options.to_])
  else
    (s1, [Event.update v])

/-- The body of `stop()` (index.js:297-309) in the no-GSAP environment:
`if (this.interval) { clearInterval(this.interval); this.interval = null }`
(the handle is a nonzero id, so truthiness is `isSome`). -/
def stop (s : State) : State :=
  match s.interval with
  | some id => { s with timers := clearIntervalT s.timers id, interval := none }
  | none => s

/-- The body of `start()` (index.js:279-289) in the no-GSAP environment:
`this.stop(); this.render();` then, since `animateWithGSAP()` returns
`false`, `this.interval = setInterval(this.update, refreshInterval)`.
Note that `start` does not call `init`. -/
def start (s : State) : State :=
  let s1 := render (stop s)
  let p := setIntervalT s1.timers
  { s1 with interval := some p.1, timers := p.2 }

/-- The body of `restart()` (index.js:266-271): `stop(); init(); start()`. -/
def restart (s : State) : State := start (init (stop s))

/-- The body of `toggle()` (index.js:317-324): `stop()` if the stored
interval handle is truthy, else `start()`. -/
def toggle (s : State) : State :=
  match s.interval with
  | some _ => stop s
  | none => start s

/-- The constructor (index.js:65-78) with already-merged options `o`: it
stores the options and calls `init()`.  In the no-GSAP environment the
`setupScrollTrigger` branch is skipped.  No render happens yet and no
interval exists yet. -/
def newCounter (o : Options) : State :=
  init
    { options := o, value := 0, loops := 0, loopCount := 0, increment := 0,
      interval := none, timers := Timers.empty, rendered := none }

/-- One firing opportunity of the event loop: the `update` callback runs
iff the instance's repeating-timer resource is still active; a cleared
timer never fires again. -/
def stepOnce (s : State) : State × List Event :=
  if s.timers.active = [] then (s, []) else update s

/-- Run `n` firing opportunities, accumulating the emitted events. -/
def runSteps : State → ℕ → State × List Event
  | s, 0 => (s, [])
  | s, n + 1 =>
    let p := stepOnce s
    let q := runSteps p.1 n
    (q.1, p.2 ++ q.2)

/-- The number of built-in ticks of a complete run:
`Math.ceil(speed / refreshInterval)` as a natural number.  This is the
value `init` stores in `loops`. -/
def totalTicks (o : Options) : ℕ := (⌈o.speed / o.refreshInterval⌉).toNat

/-- The `increment` value stored by `init`. -/
def incrementOf (o : Options) : ℚ :=
  (o.to_ - o.from_) / ((⌈o.speed / o.refreshInterval⌉ : ℤ) : ℚ)

/-- The expected `onUpdate` trace of `k` consecutive non-final ticks
starting from value `v` with per-tick increment `inc`. -/
def updTrace (v inc : ℚ) : ℕ → List Event
  | 0 => []
  | k + 1 => Event.update (v + inc) :: updTrace (v + inc) inc k

/-- The configuration of the worked scenario in the specification:
`from = 0`, `to = 1000`, `speed = 2000`, `refreshInterval = 100`. -/
def demoOpts : Options :=
  { from_ := 0, to_ := 1000, speed := 2000, refreshInterval := 100, decimals := 0 }

/-- The timer-resource invariant of an instance: at most one repeating
timer is active, every active timer is the one the stored handle refers
to, and every active id is older than the next fresh id. -/
def timerInv (s : State) : Prop :=
  s.timers.active.length ≤ 1 ∧
  (∀ id ∈ s.timers.active, s.interval = some id) ∧
  (∀ id ∈ s.timers.active, id < s.timers.nextId)

instance timerInvDecidable (s : State) : Decidable (timerInv s) := by
  unfold timerInv
  infer_instance

end MC

namespace ScrollFallback

/-- The state of the manual scroll-trigger fallback
(`setupScrollListener`, index.js:146-159 for `ModernCounter` and
index.js:405-418 for `VerticalCounter` — the two bodies are textually
identical): whether the `checkScroll` handler is still attached, and how
many times it has invoked `start()`. -/
structure ScrollState where
  attached : Bool
  started : ℕ
  deriving Repr, DecidableEq

/-- A bounding-rect observation of the tracked element
(`getBoundingClientRect`): its `top` and `bottom`, in viewport
coordinates. -/
structure Rect where
  top : ℚ
  bottom : ℚ
  deriving Repr, DecidableEq

/-- The body of `checkScroll` for viewport height `wh` and observed rect
`r`: if `rect.top <= windowHeight * 0.8 && rect.bottom >= 0`, invoke
`start()` and remove the scroll listener. -/
def checkScroll (wh : ℚ) (r : Rect) (s : ScrollState) : ScrollState :=
  if r.top ≤ wh * (8 / 10) ∧ r.bottom ≥ 0 then
    { attached := false, started := s.started + 1 }
  else s

/-- A dispatched scroll event: the handler runs only while it is still
attached. -/
def scrollEvent (wh : ℚ) (r : Rect) (s : ScrollState) : ScrollState :=
  if s.attached then checkScroll wh r s else s

/-- The body of `setupScrollListener`: attach the handler, then run the
initial check at attach time with the current rect. -/
def setupScrollListener (wh : ℚ) (r : Rect) : ScrollState :=
  checkScroll wh r { attached := true, started := 0 }

/-- A sequence of later scroll events, dispatched in order. -/
def scrollEvents (wh : ℚ) : List Rect → ScrollState → ScrollState
  | [], s => s
  | r :: rs, s => scrollEvents wh rs (scrollEvent wh r s)

end ScrollFallback

namespace VC

/-- The per-character digit value used by `buildCounter`
(index.js:470-474): `parseInt(digitValue, 10) || 0`, which is the digit's
value for a decimal digit character and 0 otherwise (`NaN || 0`). -/
def parseDigitChar (c : Char) : ℕ :=
  if c.isDigit then c.toNat - 48 else 0

/-- The digit columns built by `VerticalCounter.buildCounter`
(index.js:423-476): the target string is split into characters
(`this.options.to_.toString().split('')`) and one column is created per
character, in left-to-right string order, storing the parsed digit
value. -/
def buildCounter (toStr : String) : List ℕ := toStr.data.map parseDigitChar

/-- The stagger delay (in seconds) that `VerticalCounter.start`
(index.js:506) gives to column `index`:
`transform {duration}s ease {index * 0.1}s`. -/
def staggerDelay (index : ℕ) : ℚ := index * (1 / 10)

/-- The animation parameters `VerticalCounter.start` applies to one
column: the transition delay and the final `translateY(-{value}em)`
offset. -/
structure ColumnAnim where
  delay : ℚ
  offsetEm : ℤ
  deriving Repr, DecidableEq

/-- The per-column animations scheduled by `VerticalCounter.start`
(index.js:495-519), one per digit column in index order. -/
def startAnims (digits : List ℕ) : List ColumnAnim :=
  digits.enum.map fun p => { delay := staggerDelay p.1, offsetEm := -(p.2 : ℤ) }

/-- JS truthiness of the merged `to` option: `undefined` (absent) and the
empty string are falsy. -/
def toFalsy : Option String → Bool
  | none => true
  | some s => s.isEmpty

/-- The merged `to` value of the `VerticalCounter` constructor
(index.js:356-373): `{...DEFAULTS, ...dataOptions, ...options}` — the
explicit option wins over the data attribute; `DEFAULTS` has no `to`. -/
def mergedTo (dataAttr : Option String) (optionTo : Option String) : Option String :=
  match optionTo with
  | some s => some s
  | none => dataAttr

/-- The observable outcome of running the `VerticalCounter` constructor. -/
structure Construction where
  configError : Bool
  digitElements : List ℕ
  startScheduled : Bool
  deriving Repr, DecidableEq

/-- The `VerticalCounter` constructor (index.js:356-400) as a function of
the merged `to` value, in an environment without GSAP ScrollTrigger.  If
`!this.options.to_` it logs `console.error('VerticalCounter requires a "to"
value')` and returns early: no columns are built and nothing is scheduled.
Otherwise it builds the columns and arms a start (scroll listener or the
100ms auto-start timeout).  The constructor is a total function: it
returns normally in every case and throws nothing. -/
def construct (toOpt : Option String) : Construction :=
  if toFalsy toOpt then
    { configError := true, digitElements := [], startScheduled := false }
  else
    { configError := false
      digitElements := buildCounter (toOpt.getD "")
      startScheduled := true }

end VC

/-! ## Helper lemmas -/

namespace MC

/-- `stop` never leaves a stored interval handle. -/
theorem stop_interval_none (s : State) : (stop s).interval = none := by
  cases h : s.interval <;> simp [stop, h]

/-- `stop` preserves the fresh-id counter. -/
theorem stop_nextId (s : State) : (stop s).timers.nextId = s.timers.nextId := by
  cases h : s.interval <;> simp [stop, h, clearIntervalT]

/-- Under the timer invariant, `stop` leaves no active timer resource. -/
theorem stop_active_nil (s : State) (h : timerInv s) : (stop s).timers.active = [] := by
  obtain ⟨h1, h2, h3⟩ := h
  cases hi : s.interval with
  | none =>
    cases ha : s.timers.active with
    | nil => simp [stop, hi, ha]
    | cons a l =>
      have := h2 a (by rw [ha]; exact List.mem_cons_self a l)
      rw [hi] at this
      exact absurd this (by simp)
  | some i =>
    simp only [stop, hi, clearIntervalT]
    rw [List.filter_eq_nil_iff]
    intro a ha
    have := h2 a ha
    rw [hi] at this
    simp [Option.some.inj this]

/-- `init` changes neither the timer pool nor the stored handle, so it
preserves the timer invariant. -/
theorem timerInv_init (s : State) (h : timerInv s) : timerInv (init s) := h

/-- `stop` preserves the timer invariant. -/
theorem timerInv_stop (s : State) (h : timerInv s) : timerInv (stop s) := by
  have ha := stop_active_nil s h
  exact ⟨by rw [ha]; simp, by rw [ha]; simp, by rw [ha]; simp⟩

/-- `start` preserves the timer invariant: after `start` exactly the
freshly allocated timer is active and the handle refers to it. -/
theorem timerInv_start (s : State) (h : timerInv s) : timerInv (start s) := by
  have ha := stop_active_nil s h
  refine ⟨?_, ?_, ?_⟩ <;>
    simp [start, render, setIntervalT, ha]

/-- `update` preserves the timer invariant. -/
theorem timerInv_update (s : State) (h : timerInv s) : timerInv (update s).1 := by
  obtain ⟨h1, h2, h3⟩ := h
  obtain ⟨o, v, L, c, inc, itv, tm, rd⟩ := s
  simp only at h1 h2 h3
  unfold timerInv
  by_cases hc : ((c + 1 : ℕ) : ℤ) ≥ L
  · cases itv with
    | none =>
      simp only [update, render, hc, if_pos]
      exact ⟨h1, h2, h3⟩
    | some i =>
      simp only [update, render, hc, if_pos, clearIntervalT]
      refine ⟨?_, ?_, ?_⟩
      · exact le_trans (List.length_filter_le _ _) h1
      · intro id hm
        exact h2 id (List.mem_of_mem_filter hm)
      · intro id hm
        exact h3 id (List.mem_of_mem_filter hm)
  · simp only [update, render, hc, if_neg, not_false_iff]
    exact ⟨h1, h2, h3⟩

/-- `toggle` preserves the timer invariant. -/
theorem timerInv_toggle (s : State) (h : timerInv s) : timerInv (toggle s) := by
  unfold toggle
  cases hi : s.interval with
  | none => exact timerInv_start s h
  | some i => exact timerInv_stop s h

/-- `restart` preserves the timer invariant. -/
theorem timerInv_restart (s : State) (h : timerInv s) : timerInv (restart s) :=
  timerInv_start _ (timerInv_init _ (timerInv_stop s h))

/-- After `start`, none of the previously active timers is active: the
prior run was stopped first. -/
theorem start_clears_old_timers (s : State) (h : timerInv s) :
    ∀ id ∈ s.timers.active, id ∉ (start s).timers.active := by
  intro id hid
  have ha := stop_active_nil s h
  have hn := stop_nextId s
  have hlt : id < s.timers.nextId := h.2.2 id hid
  simp only [start, render, setIntervalT, ha, hn]
  simp only [List.nil_append, List.mem_singleton]
  omega

/-- `stop` on an instance with a null handle is a literal no-op. -/
theorem stop_noop_of_no_handle (s : State) (h : s.interval = none) : stop s = s := by
  simp [stop, h]

/-- `stop` on an instance with no active timer leaves the timer pool
unchanged (clearing a dead id does nothing). -/
theorem stop_timers_noop (s : State) (h : s.timers.active = []) :
    (stop s).timers = s.timers := by
  obtain ⟨o, v, L, c, inc, itv, ⟨nid, act⟩, rd⟩ := s
  simp only at h
  subst h
  cases itv <;> simp [stop, clearIntervalT]

end MC

namespace ScrollFallback

/-- Once the handler is detached, any sequence of later scroll events
leaves the state untouched: the handler can never fire again. -/
theorem scrollEvents_detached (wh : ℚ) (rs : List Rect) (s : ScrollState)
    (h : s.attached = false) : scrollEvents wh rs s = s := by
  induction rs with
  | nil => rfl
  | cons r rs ih => rw [scrollEvents, scrollEvent, h]; simpa using ih

end ScrollFallback

/-! ## Claims -/

/-- **C10.** `stop()` changes only the interval handle: `value`
(currentValue), `loopCount` (ticksElapsed), `loops` (totalTicks),
`increment` (perTickDelta), the configuration options and the last
rendered display text are all unchanged. -/
theorem MC.stop_frame_only_interval (s : MC.State) :
    (MC.stop s).value = s.value ∧
    (MC.stop s).loopCount = s.loopCount ∧
    (MC.stop s).loops = s.loops ∧
    (MC.stop s).increment = s.increment ∧
    (MC.stop s).options = s.options ∧
    (MC.stop s).rendered = s.rendered := by
  cases h : s.interval <;> simp [MC.stop, h]

/-- **C2 (amended).** On the built-in path, `start()` does not
re-initialize: it preserves `currentValue` and `ticksElapsed`, so a run
interrupted by `stop()` resumes from the stopped midpoint.  Only
`restart()` (which is `stop(); init(); start()`) restarts from `from`
with `ticksElapsed = 0`. -/
theorem MC.start_resumes_restart_reinitializes (s : MC.State) :
    (MC.start s).value = s.value ∧
    (MC.start s).loopCount = s.loopCount ∧
    (MC.restart s).value = s.options.from_ ∧
    (MC.restart s).loopCount = 0 := by
  obtain ⟨o, v, L, c, inc, itv, tm, rd⟩ := s
  cases itv <;>
    simp [MC.start, MC.restart, MC.stop, MC.init, MC.render, MC.setIntervalT]

set_option maxRecDepth 10000 in
/-- **C2 (counterexample).** The claim that `start()` re-initializes
`currentValue = startValue` and `ticksElapsed = 0` on the built-in path is
false: for the scenario configuration, stopping after 5 ticks (value 250)
and calling `start()` leaves value 250 and tick count 5, not value 0 and
tick count 0. -/
theorem MC.start_after_stop_not_from_cex :
    (MC.start (MC.stop (MC.runSteps (MC.start (MC.newCounter MC.demoOpts)) 5).1)).value = 250 ∧
    (MC.start (MC.stop (MC.runSteps (MC.start (MC.newCounter MC.demoOpts)) 5).1)).loopCount = 5 ∧
    MC.demoOpts.from_ = 0 ∧
    (MC.start (MC.stop (MC.runSteps (MC.start (MC.newCounter MC.demoOpts)) 5).1)).value ≠
      MC.demoOpts.from_ ∧
    (MC.start (MC.stop (MC.runSteps (MC.start (MC.newCounter MC.demoOpts)) 5).1)).loopCount ≠ 0 := by
  with_unfolding_all exact of_decide_eq_true rfl

set_option maxRecDepth 10000 in
/-- **C7.** For the Digit-Roll target string `"4562"`, `buildCounter`
creates exactly 4 digit columns with target digits `[4, 5, 6, 2]` in
left-to-right string order, and `start` gives column `index` the stagger
delay `index * 0.1` seconds, strictly increasing with the column index. -/
theorem VC.digits_and_stagger_4562 :
    VC.buildCounter "4562" = [4, 5, 6, 2] ∧
    (VC.buildCounter "4562").length = 4 ∧
    (VC.startAnims (VC.buildCounter "4562")).map VC.ColumnAnim.delay =
      [0, 1 / 10, 2 / 10, 3 / 10] ∧
    List.Chain' (· < ·)
      ((VC.startAnims (VC.buildCounter "4562")).map VC.ColumnAnim.delay) ∧
    ∀ i : ℕ, VC.staggerDelay i = i * (1 / 10) := by
  have hmap : (VC.startAnims (VC.buildCounter "4562")).map VC.ColumnAnim.delay =
      [0, 1 / 10, 2 / 10, 3 / 10] := by
    with_unfolding_all exact of_decide_eq_true rfl
  refine ⟨?_, ?_, hmap, ?_, fun i => rfl⟩
  · with_unfolding_all exact of_decide_eq_true rfl
  · with_unfolding_all exact of_decide_eq_true rfl
  · rw [hmap]
    simp only [List.chain'_cons, List.chain'_singleton, and_true]
    norm_num

/-- **C8.** Constructing a `VerticalCounter` with no `to` option and no
`data-to` attribute reports a configuration error (`console.error`) and
aborts: no digit columns are built and no animation start is scheduled.
The constructor (a total function in this embedding) returns normally, so
no fatal fault is thrown. -/
theorem VC.missing_to_reports_error :
    VC.construct (VC.mergedTo none none) =
      { configError := true, digitElements := [], startScheduled := false } := by
  rfl

/-- **C9.** The manual scroll-trigger fallback with threshold 80% of the
viewport height `wh`: a scroll event with the element's top at `0.9 * wh`
does not invoke `start()` and leaves the listener attached; an event (or
the initial check at attach time) with the top at or below `0.8 * wh` and
the bottom at or above 0 invokes `start()` exactly once and detaches the
listener; afterwards no sequence of further scroll events ever fires it
again. -/
theorem ScrollFallback.scroll_threshold_fires_once (wh : ℚ) (hw : 0 < wh)
    (bot1 top2 bot2 : ℚ) (ht : top2 ≤ wh * (8 / 10)) (hb : 0 ≤ bot2)
    (rest : List ScrollFallback.Rect) :
    ScrollFallback.scrollEvent wh ⟨wh * (9 / 10), bot1⟩ ⟨true, 0⟩ = ⟨true, 0⟩ ∧
    ScrollFallback.setupScrollListener wh ⟨top2, bot2⟩ = ⟨false, 1⟩ ∧
    ScrollFallback.scrollEvent wh ⟨top2, bot2⟩ ⟨true, 0⟩ = ⟨false, 1⟩ ∧
    ScrollFallback.scrollEvents wh rest ⟨false, 1⟩ = ⟨false, 1⟩ := by
  have h9 : ¬(wh * (9 / 10) ≤ wh * (8 / 10)) := by
    have h := mul_lt_mul_of_pos_left (show (8 / 10 : ℚ) < 9 / 10 by norm_num) hw
    linarith
  refine ⟨?_, ?_, ?_, ScrollFallback.scrollEvents_detached wh rest _ rfl⟩
  · simp [ScrollFallback.scrollEvent, ScrollFallback.checkScroll, h9]
  · simp [ScrollFallback.setupScrollListener, ScrollFallback.checkScroll, ht, hb]
  · simp [ScrollFallback.scrollEvent, ScrollFallback.checkScroll, ht, hb]

/-- **C9 (witness).** The scenario at viewport height 1000: top at 900
does not fire; top at 750 with bottom 0 fires exactly once and detaches;
two further scroll events change nothing. -/
theorem ScrollFallback.scroll_threshold_fires_once_witness :
    (0 : ℚ) < 1000 ∧ (750 : ℚ) ≤ 1000 * (8 / 10) ∧ (0 : ℚ) ≤ 0 ∧
    (ScrollFallback.scrollEvent 1000 ⟨1000 * (9 / 10), 3⟩ ⟨true, 0⟩ = ⟨true, 0⟩ ∧
     ScrollFallback.setupScrollListener 1000 ⟨750, 0⟩ = ⟨false, 1⟩ ∧
     ScrollFallback.scrollEvent 1000 ⟨750, 0⟩ ⟨true, 0⟩ = ⟨false, 1⟩ ∧
     ScrollFallback.scrollEvents 1000 [⟨-100, 50⟩, ⟨10, 20⟩] ⟨false, 1⟩ = ⟨false, 1⟩) :=
  ⟨by norm_num, by norm_num, le_refl 0,
   ScrollFallback.scroll_threshold_fires_once 1000 (by norm_num) 3 750 0
     (by norm_num) (le_refl 0) [⟨-100, 50⟩, ⟨10, 20⟩]⟩

namespace MC

/-- One step then `n` more. -/
theorem runSteps_succ (s : State) (n : ℕ) :
    runSteps s (n + 1) =
      ((runSteps (stepOnce s).1 n).1, (stepOnce s).2 ++ (runSteps (stepOnce s).1 n).2) := rfl

/-- Splitting a run of `a + b` firing opportunities. -/
theorem runSteps_add (a b : ℕ) (s : State) :
    runSteps s (a + b) =
      ((runSteps (runSteps s a).1 b).1,
       (runSteps s a).2 ++ (runSteps (runSteps s a).1 b).2) := by
  induction a generalizing s with
  | zero => simp [runSteps]
  | succ a ih =>
    have hrw : a + 1 + b = (a + b) + 1 := by omega
    rw [hrw, runSteps_succ, runSteps_succ, ih (stepOnce s).1]
    simp [runSteps_succ, List.append_assoc]

/-- With no active timer resource, nothing ever fires. -/
theorem runSteps_idle (k : ℕ) (s : State) (h : s.timers.active = []) :
    runSteps s k = (s, []) := by
  induction k with
  | zero => rfl
  | succ k ih =>
    rw [runSteps_succ]
    simp [stepOnce, h, ih]

/-- A non-final tick: with `loopCount + 1` still short of `loops`,
`update` advances the value by `increment`, increments the tick counter,
renders, and emits exactly one `onUpdate` call. -/
theorem update_mid (s : State)
    (hlt : ¬ ((s.loopCount + 1 : ℕ) : ℤ) ≥ s.loops) :
    update s =
      ({ s with value := s.value + s.increment, loopCount := s.loopCount + 1,
                rendered := some (s.value + s.increment) },
       [Event.update (s.value + s.increment)]) := by
  obtain ⟨o, v, L, c, inc, itv, tm, rd⟩ := s
  simp only at hlt
  simp [update, render, hlt]
  push_cast at hlt ⊢
  omega

/-- Running `k` non-final ticks from a mid-run state. -/
theorem runSteps_mid (k : ℕ) :
    ∀ s : State, s.timers.active ≠ [] → s.rendered = some s.value →
      ((s.loopCount : ℤ) + k < s.loops) →
      runSteps s k =
        ({ s with value := s.value + k * s.increment,
                  loopCount := s.loopCount + k,
                  rendered := some (s.value + k * s.increment) },
         updTrace s.value s.increment k) := by
  induction k with
  | zero =>
    intro s h1 h2 h3
    obtain ⟨o, v, L, c, inc, itv, tm, rd⟩ := s
    simp only at h2
    simp [runSteps, updTrace, h2]
  | succ k ih =>
    intro s h1 h2 h3
    obtain ⟨o, v, L, c, inc, itv, tm, rd⟩ := s
    simp only at h1 h2 h3
    subst h2
    rw [runSteps_succ]
    have hst : stepOnce ⟨o, v, L, c, inc, itv, tm, some v⟩ =
        update ⟨o, v, L, c, inc, itv, tm, some v⟩ := by
      simp [stepOnce, h1]
    have hlt : ¬ (((⟨o, v, L, c, inc, itv, tm, some v⟩ : State).loopCount + 1 : ℕ) : ℤ) ≥
        (⟨o, v, L, c, inc, itv, tm, some v⟩ : State).loops := by
      simp only
      push_cast at h3 ⊢
      omega
    rw [hst, update_mid _ hlt]
    simp only
    have hmid := ih ⟨o, v + inc, L, c + 1, inc, itv, tm, some (v + inc)⟩ h1 rfl
      (by simp only; push_cast at h3 ⊢; omega)
    rw [hmid]
    simp only [Prod.mk.injEq, State.mk.injEq, updTrace]
    refine ⟨⟨trivial, ?_, trivial, by omega, trivial, trivial, trivial, ?_⟩, rfl⟩
    · push_cast
      ring
    · congr 1
      push_cast
      ring

/-- The final tick: with the (single) timer active and the tick counter
reaching `loops`, `update` advances and renders once, emits the final
`onUpdate`, then clears the timer resource, forces the value to `to`,
renders again, and emits the one `onComplete`. -/
theorem update_final (s : State) (i : ℕ) (hi : s.interval = some i)
    (ha : s.timers.active = [i])
    (hf : ((s.loopCount + 1 : ℕ) : ℤ) ≥ s.loops) :
    update s =
      ({ s with value := s.options.to_, loopCount := s.loopCount + 1,
                rendered := some s.options.to_,
                timers := ⟨s.timers.nextId, []⟩ },
       [Event.update (s.value + s.increment), Event.complete s.options.to_]) := by
  obtain ⟨o, v, L, c, inc, itv, ⟨nid, act⟩, rd⟩ := s
  simp only at hi ha hf
  subst hi
  subst ha
  simp [update, render, hf, clearIntervalT]
  push_cast at hf ⊢
  omega

/-- `updTrace` grows at the far end: one more non-final tick appends the
update event for the next value. -/
theorem updTrace_succ_append (v inc : ℚ) (k : ℕ) :
    updTrace v inc (k + 1) = updTrace v inc k ++ [Event.update (v + ((k : ℚ) + 1) * inc)] := by
  induction k generalizing v with
  | zero =>
    simp [updTrace]
  | succ k ih =>
    have h1 : updTrace v inc (k + 1 + 1) =
        Event.update (v + inc) :: updTrace (v + inc) inc (k + 1) := rfl
    have h2 : updTrace v inc (k + 1) =
        Event.update (v + inc) :: updTrace (v + inc) inc k := rfl
    have harg : v + inc + ((k : ℚ) + 1) * inc = v + (((k + 1 : ℕ) : ℚ) + 1) * inc := by
      push_cast
      ring
    rw [h1, ih (v + inc), h2, harg]
    simp [List.cons_append]

end MC

namespace MC

/-- The state right after `start()` on a freshly constructed counter:
value `from`, zero ticks, the derived `loops` and `increment`, one
freshly armed interval timer (id 1), and `from` rendered once. -/
theorem start_newCounter (o : Options) :
    start (newCounter o) =
      { options := o, value := o.from_, loops := ⌈o.speed / o.refreshInterval⌉,
        loopCount := 0, increment := incrementOf o, interval := some 1,
        timers := ⟨2, [1]⟩, rendered := some o.from_ } := rfl

/-- The master run theorem: starting a freshly constructed counter and
giving the event loop at least `totalTicks` firing opportunities reaches
the completed state — value forced to `to`, tick counter at `totalTicks`,
timer resource cleared (with the stale handle still stored) — and emits
exactly the `totalTicks` update events of the linear ramp followed by the
single completion event. -/
theorem run_complete_eq (o : Options) (hs : 0 < o.speed) (hr : 0 < o.refreshInterval)
    (m : ℕ) (hm : totalTicks o ≤ m) :
    runSteps (start (newCounter o)) m =
      ({ options := o, value := o.to_, loops := ⌈o.speed / o.refreshInterval⌉,
         loopCount := totalTicks o, increment := incrementOf o,
         interval := some 1, timers := ⟨2, []⟩, rendered := some o.to_ },
       updTrace o.from_ (incrementOf o) (totalTicks o) ++ [Event.complete o.to_]) := by
  have hLpos : 0 < ⌈o.speed / o.refreshInterval⌉ := Int.ceil_pos.mpr (div_pos hs hr)
  have hnL : ((totalTicks o : ℕ) : ℤ) = ⌈o.speed / o.refreshInterval⌉ :=
    Int.toNat_of_nonneg hLpos.le
  have hn1 : 1 ≤ totalTicks o := by
    unfold totalTicks
    omega
  obtain ⟨j, hj⟩ : ∃ j, m = (totalTicks o - 1) + (j + 1) := ⟨m - totalTicks o, by omega⟩
  subst hj
  rw [runSteps_add (totalTicks o - 1) (j + 1), start_newCounter o]
  have hmid := runSteps_mid (totalTicks o - 1)
    { options := o, value := o.from_, loops := ⌈o.speed / o.refreshInterval⌉,
      loopCount := 0, increment := incrementOf o, interval := some 1,
      timers := ⟨2, [1]⟩, rendered := some o.from_ }
    (by simp) rfl (by simp only; push_cast; omega)
  rw [hmid]
  simp only
  rw [runSteps_succ]
  have hstep : stepOnce
      { options := o, value := o.from_ + ((totalTicks o - 1 : ℕ) : ℚ) * incrementOf o,
        loops := ⌈o.speed / o.refreshInterval⌉, loopCount := 0 + (totalTicks o - 1),
        increment := incrementOf o, interval := some 1, timers := ⟨2, [1]⟩,
        rendered := some (o.from_ + ((totalTicks o - 1 : ℕ) : ℚ) * incrementOf o) } =
      update
      { options := o, value := o.from_ + ((totalTicks o - 1 : ℕ) : ℚ) * incrementOf o,
        loops := ⌈o.speed / o.refreshInterval⌉, loopCount := 0 + (totalTicks o - 1),
        increment := incrementOf o, interval := some 1, timers := ⟨2, [1]⟩,
        rendered := some (o.from_ + ((totalTicks o - 1 : ℕ) : ℚ) * incrementOf o) } := by
    simp [stepOnce]
  rw [hstep]
  rw [update_final _ 1 rfl rfl (by simp only; push_cast; omega)]
  simp only
  rw [runSteps_idle j _ rfl]
  simp only [Prod.mk.injEq, State.mk.injEq]
  refine ⟨⟨trivial, trivial, trivial, by omega, trivial, trivial, trivial, trivial⟩, ?_⟩
  have htr : updTrace o.from_ (incrementOf o) (totalTicks o) =
      updTrace o.from_ (incrementOf o) (totalTicks o - 1) ++
        [Event.update (o.from_ + (((totalTicks o - 1 : ℕ) : ℚ) + 1) * incrementOf o)] := by
    have hrw : totalTicks o = (totalTicks o - 1) + 1 := by omega
    rw [hrw]
    rw [updTrace_succ_append]
    have : totalTicks o - 1 + 1 - 1 = totalTicks o - 1 := by omega
    rw [this]
  rw [htr]
  simp only [List.append_assoc, List.cons_append, List.nil_append, List.append_nil,
    List.singleton_append, List.append_cancel_left_eq]
  congr 2
  ring

end MC

namespace MC

/-- Every event of a non-final tick trace is an `onUpdate` call. -/
theorem updTrace_all_isUpdate (k : ℕ) :
    ∀ v inc : ℚ, ∀ e ∈ updTrace v inc k, e.isUpdate = true := by
  induction k with
  | zero => intro v inc e he; simp [updTrace] at he
  | succ k ih =>
    intro v inc e he
    rw [updTrace] at he
    rcases List.mem_cons.mp he with h | h
    · rw [h]; rfl
    · exact ih (v + inc) inc e h

/-- A non-final tick trace contains exactly `k` update-hook calls. -/
theorem updTrace_countP_isUpdate (k : ℕ) :
    ∀ v inc : ℚ, (updTrace v inc k).countP Event.isUpdate = k := by
  induction k with
  | zero => intro v inc; rfl
  | succ k ih =>
    intro v inc
    rw [updTrace, List.countP_cons]
    rw [ih (v + inc) inc]
    rfl

/-- A non-final tick trace contains no completion-hook call. -/
theorem updTrace_countP_isComplete (k : ℕ) :
    ∀ v inc : ℚ, (updTrace v inc k).countP Event.isComplete = 0 := by
  induction k with
  | zero => intro v inc; rfl
  | succ k ih =>
    intro v inc
    rw [updTrace, List.countP_cons]
    rw [ih (v + inc) inc]
    rfl

end MC

/-- **C1.** For every valid configuration (positive `speed` and
`refreshInterval`), once the built-in tick animation completes — the
event loop has fired at least `totalTicks` times, so `ticksElapsed`
reached `totalTicks` — the counter's `currentValue` equals `to` exactly:
the final tick forces `value = to`, leaving no residual drift from the
per-tick increments. -/
theorem MC.counter_completes_exactly (o : MC.Options) (hs : 0 < o.speed)
    (hr : 0 < o.refreshInterval) (m : ℕ) (hm : MC.totalTicks o ≤ m) :
    (MC.runSteps (MC.start (MC.newCounter o)) m).1.value = o.to_ ∧
    (MC.runSteps (MC.start (MC.newCounter o)) m).1.loopCount = MC.totalTicks o := by
  rw [MC.run_complete_eq o hs hr m hm]
  exact ⟨rfl, rfl⟩

set_option maxRecDepth 10000 in
/-- **C1 (witness).** The scenario configuration completes after its 20
ticks with value exactly 1000. -/
theorem MC.counter_completes_exactly_witness :
    (0 : ℚ) < MC.demoOpts.speed ∧ (0 : ℚ) < MC.demoOpts.refreshInterval ∧
    MC.totalTicks MC.demoOpts ≤ 20 ∧
    ((MC.runSteps (MC.start (MC.newCounter MC.demoOpts)) 20).1.value = MC.demoOpts.to_ ∧
     (MC.runSteps (MC.start (MC.newCounter MC.demoOpts)) 20).1.loopCount =
       MC.totalTicks MC.demoOpts) :=
  ⟨by with_unfolding_all exact of_decide_eq_true rfl,
   by with_unfolding_all exact of_decide_eq_true rfl,
   by with_unfolding_all exact of_decide_eq_true rfl,
   MC.counter_completes_exactly MC.demoOpts
     (by with_unfolding_all exact of_decide_eq_true rfl)
     (by with_unfolding_all exact of_decide_eq_true rfl) 20
     (by with_unfolding_all exact of_decide_eq_true rfl)⟩

/-- **C3.** `totalTicks` (the `loops` field set by `init`) equals
`ceil(speed / refreshInterval)`, and over one complete built-in-tick run
the update hook is invoked exactly `totalTicks` times. -/
theorem MC.totalTicks_and_update_count (o : MC.Options) (hs : 0 < o.speed)
    (hr : 0 < o.refreshInterval) (m : ℕ) (hm : MC.totalTicks o ≤ m) :
    (MC.newCounter o).loops = ⌈o.speed / o.refreshInterval⌉ ∧
    (MC.runSteps (MC.start (MC.newCounter o)) m).2.countP MC.Event.isUpdate =
      MC.totalTicks o := by
  refine ⟨rfl, ?_⟩
  rw [MC.run_complete_eq o hs hr m hm]
  rw [List.countP_append, MC.updTrace_countP_isUpdate]
  rfl

set_option maxRecDepth 10000 in
/-- **C3 (witness).** In the scenario configuration, `totalTicks` is
`ceil(2000 / 100) = 20` and a complete run makes exactly 20 update-hook
calls. -/
theorem MC.totalTicks_and_update_count_witness :
    (0 : ℚ) < MC.demoOpts.speed ∧ (0 : ℚ) < MC.demoOpts.refreshInterval ∧
    MC.totalTicks MC.demoOpts ≤ 25 ∧
    ((MC.newCounter MC.demoOpts).loops = ⌈MC.demoOpts.speed / MC.demoOpts.refreshInterval⌉ ∧
     (MC.runSteps (MC.start (MC.newCounter MC.demoOpts)) 25).2.countP MC.Event.isUpdate =
       MC.totalTicks MC.demoOpts) :=
  ⟨by with_unfolding_all exact of_decide_eq_true rfl,
   by with_unfolding_all exact of_decide_eq_true rfl,
   by with_unfolding_all exact of_decide_eq_true rfl,
   MC.totalTicks_and_update_count MC.demoOpts
     (by with_unfolding_all exact of_decide_eq_true rfl)
     (by with_unfolding_all exact of_decide_eq_true rfl) 25
     (by with_unfolding_all exact of_decide_eq_true rfl)⟩

/-- **C4.** Over a run kicked off by a single `start()`, the completion
hook fires exactly once, and it comes after the final update-hook call:
the whole trace is a list of update events followed by the one
`onComplete`. -/
theorem MC.complete_fires_once_after_updates (o : MC.Options) (hs : 0 < o.speed)
    (hr : 0 < o.refreshInterval) (m : ℕ) (hm : MC.totalTicks o ≤ m) :
    (MC.runSteps (MC.start (MC.newCounter o)) m).2.countP MC.Event.isComplete = 1 ∧
    ∃ us, (MC.runSteps (MC.start (MC.newCounter o)) m).2 = us ++ [MC.Event.complete o.to_] ∧
      ∀ e ∈ us, e.isUpdate = true := by
  rw [MC.run_complete_eq o hs hr m hm]
  constructor
  · rw [List.countP_append, MC.updTrace_countP_isComplete]
    rfl
  · exact ⟨MC.updTrace o.from_ (MC.incrementOf o) (MC.totalTicks o), rfl,
      MC.updTrace_all_isUpdate (MC.totalTicks o) o.from_ (MC.incrementOf o)⟩

set_option maxRecDepth 10000 in
/-- **C4 (witness).** In the scenario run the completion hook fires
exactly once, after all the update hooks. -/
theorem MC.complete_fires_once_after_updates_witness :
    (0 : ℚ) < MC.demoOpts.speed ∧ (0 : ℚ) < MC.demoOpts.refreshInterval ∧
    MC.totalTicks MC.demoOpts ≤ 21 ∧
    ((MC.runSteps (MC.start (MC.newCounter MC.demoOpts)) 21).2.countP
        MC.Event.isComplete = 1 ∧
     ∃ us, (MC.runSteps (MC.start (MC.newCounter MC.demoOpts)) 21).2 =
         us ++ [MC.Event.complete MC.demoOpts.to_] ∧
       ∀ e ∈ us, e.isUpdate = true) :=
  ⟨by with_unfolding_all exact of_decide_eq_true rfl,
   by with_unfolding_all exact of_decide_eq_true rfl,
   by with_unfolding_all exact of_decide_eq_true rfl,
   MC.complete_fires_once_after_updates MC.demoOpts
     (by with_unfolding_all exact of_decide_eq_true rfl)
     (by with_unfolding_all exact of_decide_eq_true rfl) 21
     (by with_unfolding_all exact of_decide_eq_true rfl)⟩

/-- **C5.** On the built-in tick path the interpolation is linear: for
every valid configuration and every `k ≤ totalTicks`, the value after
tick `k` equals `from + k * (to - from) / totalTicks`.  (At
`k = totalTicks` the forced assignment `value = to` agrees with the
formula exactly, since the arithmetic is rational.) -/
theorem MC.linear_interpolation (o : MC.Options) (hs : 0 < o.speed)
    (hr : 0 < o.refreshInterval) (k : ℕ) (hk : k ≤ MC.totalTicks o) :
    (MC.runSteps (MC.start (MC.newCounter o)) k).1.value =
      o.from_ + k * (o.to_ - o.from_) / (MC.totalTicks o : ℚ) := by
  have hLpos : 0 < ⌈o.speed / o.refreshInterval⌉ := Int.ceil_pos.mpr (div_pos hs hr)
  have hnL : ((MC.totalTicks o : ℕ) : ℤ) = ⌈o.speed / o.refreshInterval⌉ :=
    Int.toNat_of_nonneg hLpos.le
  have hcast : ((⌈o.speed / o.refreshInterval⌉ : ℤ) : ℚ) = (MC.totalTicks o : ℚ) := by
    rw [← hnL]
    push_cast
    rfl
  rcases Nat.lt_or_ge k (MC.totalTicks o) with hlt | hge
  · rw [MC.start_newCounter o]
    rw [MC.runSteps_mid k _ (by simp) rfl (by simp only; push_cast; omega)]
    simp only
    unfold MC.incrementOf
    rw [hcast, mul_div_assoc]
  · have hkeq : k = MC.totalTicks o := le_antisymm hk hge
    subst hkeq
    rw [MC.run_complete_eq o hs hr (MC.totalTicks o) le_rfl]
    simp only
    have h1 : 1 ≤ MC.totalTicks o := by unfold MC.totalTicks; omega
    have hne : ((MC.totalTicks o : ℕ) : ℚ) ≠ 0 := by
      exact_mod_cast Nat.one_le_iff_ne_zero.mp h1
    field_simp

set_option maxRecDepth 10000 in
/-- **C5 (witness).** In the scenario configuration `totalTicks = 20` and
`perTickDelta = 50`; the theorem applied at `k = 7` gives the ramp value,
which evaluates to 350, and the full 20-tick run emits exactly the value
sequence `50, 100, ..., 1000`. -/
theorem MC.linear_interpolation_witness :
    (0 : ℚ) < MC.demoOpts.speed ∧ (0 : ℚ) < MC.demoOpts.refreshInterval ∧
    (7 : ℕ) ≤ MC.totalTicks MC.demoOpts ∧
    MC.totalTicks MC.demoOpts = 20 ∧
    MC.incrementOf MC.demoOpts = 50 ∧
    (MC.runSteps (MC.start (MC.newCounter MC.demoOpts)) 7).1.value =
      MC.demoOpts.from_ +
        (7 : ℕ) * (MC.demoOpts.to_ - MC.demoOpts.from_) / (MC.totalTicks MC.demoOpts : ℚ) ∧
    MC.demoOpts.from_ +
        (7 : ℕ) * (MC.demoOpts.to_ - MC.demoOpts.from_) / (MC.totalTicks MC.demoOpts : ℚ) = 350 ∧
    (MC.runSteps (MC.start (MC.newCounter MC.demoOpts)) 20).2 =
      [MC.Event.update 50, MC.Event.update 100, MC.Event.update 150, MC.Event.update 200,
       MC.Event.update 250, MC.Event.update 300, MC.Event.update 350, MC.Event.update 400,
       MC.Event.update 450, MC.Event.update 500, MC.Event.update 550, MC.Event.update 600,
       MC.Event.update 650, MC.Event.update 700, MC.Event.update 750, MC.Event.update 800,
       MC.Event.update 850, MC.Event.update 900, MC.Event.update 950, MC.Event.update 1000,
       MC.Event.complete 1000] :=
  ⟨by with_unfolding_all exact of_decide_eq_true rfl,
   by with_unfolding_all exact of_decide_eq_true rfl,
   by with_unfolding_all exact of_decide_eq_true rfl,
   by with_unfolding_all exact of_decide_eq_true rfl,
   by with_unfolding_all exact of_decide_eq_true rfl,
   MC.linear_interpolation MC.demoOpts
     (by with_unfolding_all exact of_decide_eq_true rfl)
     (by with_unfolding_all exact of_decide_eq_true rfl) 7
     (by with_unfolding_all exact of_decide_eq_true rfl),
   by with_unfolding_all exact of_decide_eq_true rfl,
   by with_unfolding_all exact of_decide_eq_true rfl⟩

/-- **C6.** Timer-resource safety: under the invariant "at most one
active repeating timer, tied to the stored handle", every public
operation (`start`, `stop`, `restart`, `toggle`) and the tick callback
`update` preserve the invariant; `start` while already running first
stops the prior run (no previously active timer survives); `stop` with a
null handle is a literal no-op; `stop` always leaves zero active timers;
and `stop` when no timer is active leaves the timer pool untouched (no
dangling resource). -/
theorem MC.timer_resource_safety (s : MC.State) (h : MC.timerInv s) :
    MC.timerInv (MC.start s) ∧ MC.timerInv (MC.stop s) ∧ MC.timerInv (MC.restart s) ∧
    MC.timerInv (MC.toggle s) ∧ MC.timerInv (MC.update s).1 ∧
    (∀ id ∈ s.timers.active, id ∉ (MC.start s).timers.active) ∧
    (s.interval = none → MC.stop s = s) ∧
    (MC.stop s).timers.active = [] ∧
    (s.timers.active = [] → (MC.stop s).timers = s.timers) :=
  ⟨MC.timerInv_start s h, MC.timerInv_stop s h, MC.timerInv_restart s h,
   MC.timerInv_toggle s h, MC.timerInv_update s h, MC.start_clears_old_timers s h,
   MC.stop_noop_of_no_handle s, MC.stop_active_nil s h, MC.stop_timers_noop s⟩

/-- **C6 (witness).** The invariant holds of a freshly started scenario
counter (exactly one active timer, id 1), and all the safety conclusions
follow for it. -/
theorem MC.timer_resource_safety_witness :
    MC.timerInv (MC.start (MC.newCounter MC.demoOpts)) ∧
    (MC.timerInv (MC.start (MC.start (MC.newCounter MC.demoOpts))) ∧
     MC.timerInv (MC.stop (MC.start (MC.newCounter MC.demoOpts))) ∧
     MC.timerInv (MC.restart (MC.start (MC.newCounter MC.demoOpts))) ∧
     MC.timerInv (MC.toggle (MC.start (MC.newCounter MC.demoOpts))) ∧
     MC.timerInv (MC.update (MC.start (MC.newCounter MC.demoOpts))).1 ∧
     (∀ id ∈ (MC.start (MC.newCounter MC.demoOpts)).timers.active,
        id ∉ (MC.start (MC.start (MC.newCounter MC.demoOpts))).timers.active) ∧
     ((MC.start (MC.newCounter MC.demoOpts)).interval = none →
        MC.stop (MC.start (MC.newCounter MC.demoOpts)) = MC.start (MC.newCounter MC.demoOpts)) ∧
     (MC.stop (MC.start (MC.newCounter MC.demoOpts))).timers.active = [] ∧
     ((MC.start (MC.newCounter MC.demoOpts)).timers.active = [] →
        (MC.stop (MC.start (MC.newCounter MC.demoOpts))).timers =
          (MC.start (MC.newCounter MC.demoOpts)).timers)) :=
  ⟨by with_unfolding_all exact of_decide_eq_true rfl,
   MC.timer_resource_safety (MC.start (MC.newCounter MC.demoOpts))
     (by with_unfolding_all exact of_decide_eq_true rfl)⟩
